import Mathlib

/-!
Verification development for the gptload-rs reverse proxy.

This file gives a shallow embedding, in Lean 4, of the parts of the Rust
source that the checked properties are about:

* `src/billing.rs` — the billing store (`apply_usage`, `adjust_balance`);
* `src/state.rs`   — the router snapshot, the selector
  (`select_for_model`, `select_key`), the circuit breaker (`ban_key`,
  `ban_upstream`, `on_upstream_status`), and snapshot construction
  (`build_snapshot_from_configs`, `build_key_states`);
* `src/proxy.rs`   — API-key extraction (`extract_api_key`), the models-list
  shortcut (`models_list`), request-body buffering, the 429 retry loop of
  `forward`, and streaming SSE usage extraction (`parse_sse_usage`,
  `extract_usage_from_value` and the chunk loop of
  `proxy_upstream_response`).

Machine integers are modelled as `Nat` with explicit wrap / saturation where
the Rust code relies on it (`u32` streak counters wrap on `fetch_add`;
`u64` cooldown arithmetic is saturating).  External crates (serde_json,
http's URI parser, header validation) are modelled as parameters: a JSON
parser is an arbitrary function `String → Option Json`, URL/header validity
are arbitrary boolean predicates.  Stateful atomics become explicit state
passing; the sequential model reads each atomic once, matching the value
"at the moment it was read" in the concurrent original.
-/

namespace GptLoad

/-- Rust `u64::MAX`: saturating u64 arithmetic clamps here. -/
def U64MAX : Nat := 2 ^ 64 - 1

/-- Rust `2^32`: `u32` counters (`fail_streak`) wrap modulo this on `fetch_add`. -/
def U32MOD : Nat := 2 ^ 32

/-- Saturating `u64` addition (`u64::saturating_add`). -/
def satAdd64 (a b : Nat) : Nat := min (a + b) U64MAX

/-- Saturating `u64` multiplication (`u64::saturating_mul`). -/
def satMul64 (a b : Nat) : Nat := min (a * b) U64MAX

/-- Rust `i64::MAX`. -/
def I64MAX : Int := 2 ^ 63 - 1

/-- Rust `i64::MIN`. -/
def I64MIN : Int := -(2 ^ 63)

/-- Saturating `i64` addition (`i64::saturating_add`). -/
def satAddI64 (a b : Int) : Int := max I64MIN (min I64MAX (a + b))

/-! ## Billing store (`src/billing.rs`)

The in-memory map `balances : AHashMap<String, Arc<AtomicI64>>` is modelled
as an association list; the persister mailbox (`persist_tx`, carrying
`PersistUpdate::Set` messages) is modelled as the list of messages sent so
far.  The CAS loop of `adjust_balance` collapses to a single read-modify-
write in the sequential model. -/

structure BillingStoreM where
  balances : List (String × Int)
  persist : List (String × Int)
deriving DecidableEq, Repr

/-- Rust `BillingStore::get_balance`: atomic load of the key's balance. -/
def get_balance (st : BillingStoreM) (key : String) : Option Int :=
  st.balances.lookup key

/-- Replace the balance stored under `key` (the successful CAS). -/
def setBalance : List (String × Int) → String → Int → List (String × Int)
  | [], k, v => [(k, v)]
  | (k', v') :: rest, k, v =>
    if k' = k then (k, v) :: rest else (k', v') :: setBalance rest k v

/-- Rust `BillingStore::adjust_balance`: saturating add `delta` to the balance of
`key` if present, enqueue a `Set` persistence message, return the new
balance; `None` when the key is unknown. -/
def adjust_balance (st : BillingStoreM) (key : String) (delta : Int) :
    Option Int × BillingStoreM :=
  match st.balances.lookup key with
  | none => (none, st)
  | some cur =>
    let new_balance := satAddI64 cur delta
    (some new_balance,
     ⟨setBalance st.balances key new_balance, st.persist ++ [(key, new_balance)]⟩)

/-- Rust `BillingStore::apply_usage`: `i64::try_from(total_tokens).ok()?` (fails
for `total_tokens > i64::MAX`), short-circuit on zero, else
`adjust_balance(key, -delta)`. -/
def apply_usage (st : BillingStoreM) (key : String) (total_tokens : Nat) :
    Option Int × BillingStoreM :=
  if (total_tokens : Int) ≤ I64MAX then
    if (total_tokens : Int) = 0 then (get_balance st key, st)
    else adjust_balance st key (-(total_tokens : Int))
  else (none, st)

/-! ## Breaker state and configuration (`src/state.rs`, `src/config.rs`) -/

/-- Rust `config::BanConfig` (all fields `u64` except the `u32` `max_backoff_pow`). -/
structure BanConfigM where
  rate_limit_ms : Nat
  server_error_ms : Nat
  network_error_ms : Nat
  auth_error_ms : Nat
  max_backoff_pow : Nat
deriving DecidableEq, Repr

/-- Rust `state::KeyState`: one upstream credential.  `cooldown_until_ms` and
`fail_streak` are the atomics, read/written with relaxed ordering. -/
structure KeyStateM where
  key : String
  auth_header : String
  cooldown_until_ms : Nat
  fail_streak : Nat
deriving DecidableEq, Repr

/-- Rust `state::Upstream`.  The URI pieces (`base_scheme`, `base_authority`,
`base_path`) and the per-upstream stats counters are not needed by any
checked claim and are omitted; `models` is the `AHashSet<String>` of
supported model names, modelled as a list; `key_rr` is the per-upstream
round-robin cursor. -/
structure UpstreamM where
  id : String
  base_url : String
  weight : Nat
  keys : List KeyStateM
  key_rr : Nat
  models : List String
  cooldown_until_ms : Nat
  fail_streak : Nat
deriving DecidableEq, Repr

/-- Rust `RouterState::ban_key`: bump the credential's streak (wrapping `u32`
`fetch_add`), cap the exponent by `min(max_backoff_pow, 30)`, backoff
`base_ms * (1 << pow)` with saturating `u64` arithmetic, store the new
cooldown. -/
def ban_key (ban : BanConfigM) (key : KeyStateM) (base_ms now_ms : Nat) :
    KeyStateM :=
  let streak := (key.fail_streak + 1) % U32MOD
  let max_pow := min ban.max_backoff_pow 30
  let pow := min ((streak + (U32MOD - 1)) % U32MOD) max_pow
  let mult := 1 <<< pow
  let ban_ms := satMul64 base_ms mult
  let until_ms := satAdd64 now_ms ban_ms
  { key with fail_streak := streak, cooldown_until_ms := until_ms }

/-- Rust `RouterState::ban_upstream`: same backoff computation on the upstream's
own streak and cooldown. -/
def ban_upstream (ban : BanConfigM) (u : UpstreamM) (base_ms now_ms : Nat) :
    UpstreamM :=
  let streak := (u.fail_streak + 1) % U32MOD
  let max_pow := min ban.max_backoff_pow 30
  let pow := min ((streak + (U32MOD - 1)) % U32MOD) max_pow
  let mult := 1 <<< pow
  let ban_ms := satMul64 base_ms mult
  let until_ms := satAdd64 now_ms ban_ms
  { u with fail_streak := streak, cooldown_until_ms := until_ms }

/-! ## Response classification and the breaker outcome mapping -/

/-- Rust `http::StatusCode::is_success` (`200..=299`). -/
def is_success (s : Nat) : Bool := 200 ≤ s && s ≤ 299

/-- Rust `http::StatusCode::is_redirection` (`300..=399`). -/
def is_redirection (s : Nat) : Bool := 300 ≤ s && s ≤ 399

/-- Rust `http::StatusCode::is_client_error` (`400..=499`). -/
def is_client_error (s : Nat) : Bool := 400 ≤ s && s ≤ 499

/-- Rust `http::StatusCode::is_server_error` (`500..=599`).  Note the `http`
crate admits status codes `100..=999`, so `is_server_error` is strictly
narrower than `S >= 500`. -/
def is_server_error (s : Nat) : Bool := 500 ≤ s && s ≤ 599

/-- The four response-class counters shared by `Stats` and `UpstreamStats`
(the remaining counters of those structs are unrelated to the claims). -/
structure ResponseCounters where
  responses_2xx : Nat
  responses_3xx : Nat
  responses_4xx : Nat
  responses_5xx : Nat
deriving DecidableEq, Repr

/-- Rust `state::inc_status` / `RouterState::inc_global_status`: bump the counter
of the response's class. -/
def inc_status (c : ResponseCounters) (status : Nat) : ResponseCounters :=
  if is_success status then { c with responses_2xx := c.responses_2xx + 1 }
  else if is_redirection status then { c with responses_3xx := c.responses_3xx + 1 }
  else if is_client_error status then { c with responses_4xx := c.responses_4xx + 1 }
  else if is_server_error status then { c with responses_5xx := c.responses_5xx + 1 }
  else c

/-- Result of `RouterState::on_upstream_status`: the updated upstream,
credential, per-upstream counters and global counters. -/
structure StatusOutcome where
  upstream : UpstreamM
  key : KeyStateM
  upstream_stats : ResponseCounters
  global_stats : ResponseCounters
deriving DecidableEq, Repr

/-- Rust `RouterState::on_upstream_status`: any HTTP response proves the upstream
reachable, so its streak and cooldown are zeroed first; then 429 banters the
credential with the rate-limit base, 401/403 with the auth-error base, a
server error (`is_server_error`, i.e. `500..=599`) banters the upstream with
the server-error base, and every other status zeroes the credential's
streak. -/
def on_upstream_status (ban : BanConfigM) (u : UpstreamM) (k : KeyStateM)
    (ustats gstats : ResponseCounters) (status now_ms : Nat) : StatusOutcome :=
  let u := { u with fail_streak := 0, cooldown_until_ms := 0 }
  let ustats := inc_status ustats status
  let gstats := inc_status gstats status
  if status = 429 then
    ⟨u, ban_key ban k ban.rate_limit_ms now_ms, ustats, gstats⟩
  else if status = 401 ∨ status = 403 then
    ⟨u, ban_key ban k ban.auth_error_ms now_ms, ustats, gstats⟩
  else if is_server_error status then
    ⟨ban_upstream ban u ban.server_error_ms now_ms, k, ustats, gstats⟩
  else
    ⟨u, { k with fail_streak := 0 }, ustats, gstats⟩

/-! ## The selector (`src/state.rs`)

`RouterSnapshot` and the cursor.  The global `sched_rr` cursor and each
upstream's `key_rr` cursor are `fetch_add` atomics; the sequential model
takes the pre-increment cursor values as inputs (`cursor`, `u.key_rr`) and
the loop of `i` in `0..len` adds `i` to them, exactly as the repeated
`fetch_add(1)` of a lone caller does. -/

structure RouterSnapshotM where
  upstreams : List UpstreamM
  upstream_index : List (String × Nat)
  schedule : List Nat
deriving DecidableEq, Repr

/-- A fallback `KeyStateM` for `List.getD` (never reached: indices are
reduced modulo the length). -/
def dummyKey : KeyStateM := ⟨"", "", 0, 0⟩

/-- A fallback `UpstreamM` for `List.getD`. -/
def dummyUpstream : UpstreamM := ⟨"", "", 1, [], 0, [], 0, 0⟩

/-- Rust `Selected` with its upstream and key. -/
structure SelectedM where
  upstream : UpstreamM
  key : KeyStateM
deriving DecidableEq, Repr

/-- Rust `Upstream::select_key`: iterate at most `keys.len()` slots from the
per-upstream round-robin cursor and return the first credential whose
cooldown has elapsed. -/
def select_key (u : UpstreamM) (now_ms : Nat) : Option KeyStateM :=
  let n := u.keys.length
  if n = 0 then none
  else
    (List.range n).findSome? fun i =>
      let idx := (u.key_rr + i) % n
      let k := u.keys.getD idx dummyKey
      if k.cooldown_until_ms ≤ now_ms then some k else none

/-- One slot of the `select_for_model` search: resolve the scheduled
upstream, skip it if it does not advertise `model` or is in cooldown, else
try `select_key`. -/
def slot_try (snap : RouterSnapshotM) (model : String) (now_ms cursor i : Nat) :
    Option SelectedM :=
  let sched_len := snap.schedule.length
  let rr := cursor + i
  let u_idx := snap.schedule.getD (rr % sched_len) 0
  let u := snap.upstreams.getD u_idx dummyUpstream
  if model ∈ u.models then
    if now_ms < u.cooldown_until_ms then none
    else
      match select_key u now_ms with
      | some k => some ⟨u, k⟩
      | none => none
  else none

/-- Rust `RouterState::select_for_model`: examine at most `schedule.len()` slots
starting from the fetch-and-add cursor; `None` on an empty schedule or when
every slot is skipped. -/
def select_for_model (snap : RouterSnapshotM) (cursor : Nat) (model : String)
    (now_ms : Nat) : Option SelectedM :=
  if snap.schedule.length = 0 then none
  else (List.range snap.schedule.length).findSome? (slot_try snap model now_ms cursor)

/-! ## The 429 retry loop of `proxy::forward`

The round trip of each attempt (`tokio::time::timeout(..., client.request)`)
is modelled by an oracle `outcome : Nat → OutcomeM` giving the transport
result of the `attempt`-th request, and the re-selection
`state.select_for_model(&model, now_ms)` performed after a 429 by an oracle
`reselect`.  Attempt indices and retry counts advance together from `(0, 0)`. -/

/-- Transport outcome of one upstream round trip. -/
inductive OutcomeM where
  | resp (status : Nat)
  | net_error
  | timed_out
deriving DecidableEq, Repr

/-- What `forward` finally does after the loop: forward the last upstream
response, or synthesize `502 upstream_error` / `504 upstream_timeout`. -/
inductive ForwardResult where
  | forwarded (status : Nat) (retries : Nat)
  | upstream_error (retries : Nat)
  | upstream_timeout (retries : Nat)
deriving DecidableEq, Repr

/-- Rust `const MAX_RETRIES: usize = 5`. -/
def MAX_RETRIES : Nat := 5

/-- The `loop` of `proxy::forward`, restricted to the retry control flow:
on a received response of status 429 with retries remaining, consult the
selector and either retry or forward; on any other status forward; on a
transport error or timeout return the mapped error. -/
def forward_loop (outcome : Nat → OutcomeM) (reselect : Nat → Option SelectedM)
    (attempt retry_count : Nat) : ForwardResult :=
  match outcome attempt with
  | .resp status =>
    if h : status = 429 ∧ retry_count < MAX_RETRIES then
      match reselect attempt with
      | some _ => forward_loop outcome reselect (attempt + 1) (retry_count + 1)
      | none => .forwarded status retry_count
    else .forwarded status retry_count
  | .net_error => .upstream_error retry_count
  | .timed_out => .upstream_timeout retry_count
termination_by MAX_RETRIES - retry_count
decreasing_by
  simp only [MAX_RETRIES] at *
  omega

/-- Rust `char::is_whitespace` (on the whitespace characters relevant here). -/
def isWs (c : Char) : Bool := c.isWhitespace

/-- Rust `str::trim`: strip leading and trailing whitespace.  Rust strings
are sequences of chars; modelling them as `List Char` keeps every string
operation structurally recursive (hence evaluable). -/
def trimCharsPre (s : List Char) : List Char :=
  List.rdropWhile isWs (List.dropWhile isWs s)

/-! ## Snapshot construction (`build_snapshot_from_configs`, `src/state.rs`)

External effects are parameters: `url_ok` stands for `u.base_url.parse::<Uri>()`
plus the scheme/authority checks of `parse_upstream`, `header_ok` for
`HeaderValue::from_str` in `build_key_states`, and `store` for
`KeyStore::load_all_keys`. -/

/-- Rust `config::UpstreamConfig`. -/
structure UpstreamConfigM where
  id : String
  base_url : String
  weight : Option Nat
deriving DecidableEq, Repr

/-- A fallback `UpstreamConfigM` for `List.getD`. -/
def dummyConfig : UpstreamConfigM := ⟨"", "", none⟩

/-- Rust `const MAX_WEIGHT: usize = 100`. -/
def MAX_WEIGHT : Nat := 100

/-- Rust `usize::clamp(w, 1, MAX_WEIGHT)`. -/
def clampWeight (w : Nat) : Nat := min (max w 1) MAX_WEIGHT

/-- Rust `state::parse_upstream`: parse the base URL (abstracted by `url_ok`) and
materialize the upstream with zeroed cursors, empty model set, no cooldown. -/
def parse_upstream (url_ok : String → Bool) (c : UpstreamConfigM)
    (weight : Nat) : Except String UpstreamM :=
  if url_ok c.base_url then
    .ok ⟨c.id, c.base_url, weight, [], 0, [], 0, 0⟩
  else .error ("upstream " ++ c.id ++ ": invalid base_url")

/-- Rust `state::build_key_states`: trim each credential (`str::trim`, modelled
on the character list as in `trimChars` below), skip blanks, fail if
`Bearer <k>` is not a valid header value (abstracted by `header_ok`), and
precompute the `auth_header`. -/
def build_key_states (header_ok : String → Bool) :
    List String → Except String (List KeyStateM)
  | [] => .ok []
  | k :: rest =>
    let k' : String := ⟨trimCharsPre k.data⟩
    if k'.data.isEmpty then build_key_states header_ok rest
    else if header_ok ("Bearer " ++ k') then
      match build_key_states header_ok rest with
      | .ok out => .ok (⟨k', "Bearer " ++ k', 0, 0⟩ :: out)
      | .error e => .error e
    else .error "invalid key (cannot be used in HTTP header)"

/-- The `for u_cfg in configs` loop of `build_snapshot_from_configs`,
carrying the accumulated `upstreams`, `upstream_index` and `schedule`. -/
def build_go (url_ok header_ok : String → Bool) (store : String → List String) :
    List UpstreamConfigM → List UpstreamM → List (String × Nat) → List Nat →
    Except String RouterSnapshotM
  | [], upstreams, upstream_index, schedule =>
    .ok ⟨upstreams, upstream_index, schedule⟩
  | c :: rest, upstreams, upstream_index, schedule =>
    if upstream_index.any (fun p => p.1 = c.id) then
      .error ("duplicate upstream id: " ++ c.id)
    else
      let weight := clampWeight (c.weight.getD 1)
      match parse_upstream url_ok c weight with
      | .error e => .error e
      | .ok u0 =>
        match build_key_states header_ok (store c.id) with
        | .error e => .error e
        | .ok ks =>
          let u := { u0 with keys := ks }
          let idx := upstreams.length
          build_go url_ok header_ok store rest (upstreams ++ [u])
            (upstream_index ++ [(c.id, idx)])
            (schedule ++ List.replicate weight idx)

/-- Rust `state::build_snapshot_from_configs`: reject an empty configuration,
then fold the configs into upstreams, index and weighted schedule. -/
def build_snapshot_from_configs (url_ok header_ok : String → Bool)
    (store : String → List String) (configs : List UpstreamConfigM) :
    Except String RouterSnapshotM :=
  if configs.isEmpty then .error "no upstreams configured"
  else build_go url_ok header_ok store configs [] [] []

/-! ## Request-body buffering (`proxy::forward`, `src/proxy.rs`)

The `while let Some(chunk_result) = body_reader.data().await` loop.  A chunk
is modelled by its byte length (only lengths, the 16 MiB bound, and the error
codes matter to the claims); `Err(_)` chunks are `read_error`.  The Rust
guard is `body_bytes.len().saturating_add(chunk.len()) > MAX` on `usize`
(64-bit). -/

/-- One result of `body_reader.data().await`. -/
inductive BodyChunk where
  | data (len : Nat)
  | read_error
deriving DecidableEq, Repr

/-- Rust `const MAX_REQUEST_BODY_BYTES: usize = 16 * 1024 * 1024`. -/
def MAX_REQUEST_BODY_BYTES : Nat := 16 * 1024 * 1024

/-- A standardized JSON error response, `RouterState::json_error`: only the
status and `code` field are relevant to the claims. -/
structure ProxyError where
  status : Nat
  code : String
deriving DecidableEq, Repr

/-- The body-buffering loop of `proxy::forward`: accumulate chunk bytes with
the saturating overflow guard, `413 body_too_large` on overflow,
`502 body_read_error` on a failed read, else the total buffered length. -/
def read_request_body : List BodyChunk → Nat → Except ProxyError Nat
  | [], acc => .ok acc
  | .data len :: rest, acc =>
    if min (acc + len) U64MAX > MAX_REQUEST_BODY_BYTES then
      .error ⟨413, "body_too_large"⟩
    else read_request_body rest (acc + len)
  | .read_error :: _, _ => .error ⟨502, "body_read_error"⟩

/-! ## API-key extraction (`proxy::extract_api_key`, `src/proxy.rs`)

Header values are modelled as `List Char` (a Rust `&str` is a sequence of
chars) so that `str::trim` becomes `dropWhile`/`rdropWhile` on whitespace,
for which idempotence is provable.  A header that is absent, or whose
`to_str()` fails, is `none`. -/

/-- Alias of `trimCharsPre` under the name used by the key-extraction
section (`str::trim`). -/
def trimChars (s : List Char) : List Char := trimCharsPre s

/-- Rust `str::strip_prefix`: `some` remainder when `pre` is a prefix. -/
def stripPre (pre s : List Char) : Option (List Char) :=
  if pre.isPrefixOf s then some (s.drop pre.length) else none

/-- Characters of `Bearer ` with the trailing space. -/
def bearerUC : List Char := "Bearer ".toList

/-- Characters of `bearer ` with the trailing space. -/
def bearerLC : List Char := "bearer ".toList

/-- The `Authorization` branch of `extract_api_key`: trim, bail on empty,
optionally strip a `Bearer `/`bearer ` prefix, trim again, return the key
if non-empty. -/
def auth_api_key (authorization : Option (List Char)) : Option (List Char) :=
  match authorization with
  | none => none
  | some s =>
    let raw := trimChars s
    if raw = [] then none
    else
      let stripped := ((stripPre bearerUC raw).orElse fun _ => stripPre bearerLC raw).getD raw
      let key := trimChars stripped
      if key = [] then none else some key

/-- Rust `proxy::extract_api_key`: prefer a non-blank `X-API-Key`, else fall back
to the `Authorization` header. -/
def extract_api_key (x_api_key authorization : Option (List Char)) :
    Option (List Char) :=
  match x_api_key with
  | some s =>
    if trimChars s = [] then auth_api_key authorization
    else some (trimChars s)
  | none => auth_api_key authorization

/-! ## JSON values and usage extraction (`src/proxy.rs`)

`serde_json::Value` restricted to what the usage extractor inspects:
numbers are modelled as integers (`as_u64` succeeds exactly on `0..2^64`),
objects as association lists with the first binding winning on lookup
(serde maps have unique keys). -/

inductive Json where
  | jnull
  | jbool (b : Bool)
  | jnum (n : Int)
  | jstr (s : String)
  | jarr (xs : List Json)
  | jobj (fields : List (String × Json))
deriving Repr

/-- Rust `Value::get(key)` on an object. -/
def Json.getField : Json → String → Option Json
  | .jobj fields, key => fields.lookup key
  | _, _ => none

/-- Rust `Value::as_u64`. -/
def Json.as_u64 : Json → Option Nat
  | .jnum n => if 0 ≤ n ∧ n < (2 : Int) ^ 64 then some n.toNat else none
  | _ => none

/-- Rust `proxy::UsageTokens`. -/
structure UsageTokens where
  prompt : Nat
  completion : Nat
  total : Nat
deriving DecidableEq, Repr

/-- Rust `proxy::extract_usage_from_value`: read `usage.prompt_tokens`,
`usage.completion_tokens`, `usage.total_tokens`; synthesize
`total = prompt + completion` (wrapping u64 addition) when `total_tokens`
is absent but both parts are present; `None` when all three are missing. -/
def extract_usage_from_value (v : Json) : Option UsageTokens :=
  match v.getField "usage" with
  | none => none
  | some usage =>
    let prompt := (usage.getField "prompt_tokens").bind Json.as_u64
    let completion := (usage.getField "completion_tokens").bind Json.as_u64
    let total :=
      ((usage.getField "total_tokens").bind Json.as_u64).orElse fun _ =>
        match prompt, completion with
        | some p, some c => some ((p + c) % 2 ^ 64)
        | _, _ => none
    if prompt = none ∧ completion = none ∧ total = none then none
    else some ⟨prompt.getD 0, completion.getD 0, total.getD 0⟩

/-! ## SSE usage parsing (`proxy::parse_sse_usage` and the chunk loop of
`proxy_upstream_response`)

The JSON parser (`serde_json::from_str`) is a parameter
`parse : List Char → Option Json` over the characters of the candidate
line: a `none` result is a parse error, which the code ignores.  Rust
strings and chunks are modelled as `List Char`.  The Rust loop
`while let Some(pos) = buf.find('\n')` with `buf.drain(..=pos)` consumes
exactly the complete lines of the buffer and keeps the final unterminated
segment, i.e. it splits on `'\n'` and retains the last piece. -/

/-- Rust `str::contains(needle)`: some suffix of the haystack starts with
the needle. -/
def listContains (needle : List Char) : List Char → Bool
  | [] => needle.isEmpty
  | c :: rest => needle.isPrefixOf (c :: rest) || listContains needle rest

/-- The characters of the substring filter `data.contains("\"usage\"")`. -/
def usageNeedle : List Char := "\"usage\"".toList

/-- Characters of the `data:` tag. -/
def dataTag : List Char := "data:".toList

/-- Characters of the `[DONE]` sentinel. -/
def doneTag : List Char := "[DONE]".toList

/-- Split on `'\n'`, keeping every piece (the last one is the part after
the final newline, possibly empty). -/
def splitNL : List Char → List (List Char)
  | [] => [[]]
  | c :: rest =>
    if c = '\n' then [] :: splitNL rest
    else
      match splitNL rest with
      | [] => [[c]]
      | seg :: segs => (c :: seg) :: segs

/-- Complete lines of the buffer: all pieces of a `'\n'` split but the last. -/
def linesOf (s : List Char) : List (List Char) := (splitNL s).dropLast

/-- The unterminated remainder kept in the buffer. -/
def restOf (s : List Char) : List Char := (splitNL s).getLastD []

/-- Processing of one complete SSE line: strip a trailing `'\r'` run, demand
a `data:` tag, trim, skip `[DONE]`, cheaply filter by the `"usage"`
substring, then parse and extract; any failure yields `none`. -/
def sse_line_usage (parse : List Char → Option Json) (seg : List Char) :
    Option UsageTokens :=
  let line := List.rdropWhile (fun c => c == '\r') seg
  if dataTag.isPrefixOf line then
    let dat := trimCharsPre (line.drop 5)
    if dat = doneTag then none
    else if !listContains usageNeedle dat then none
    else
      match parse dat with
      | some v => extract_usage_from_value v
      | none => none
  else none

/-- Rust `proxy::parse_sse_usage`: append the chunk to the line buffer, process
every complete line (the last successful extraction wins within the call),
return the found usage and the new buffer. -/
def parse_sse_usage (parse : List Char → Option Json) (buf chunk : List Char) :
    Option UsageTokens × List Char :=
  let s := buf ++ chunk
  ((linesOf s).foldl
      (fun found seg =>
        match sse_line_usage parse seg with
        | some u => some u
        | none => found)
      none,
   restOf s)

/-- The SSE arm of the chunk loop in `proxy_upstream_response`: once `usage`
is `some`, further chunks are forwarded but not parsed
(`if !parse_enabled || usage.is_some() { continue; }`); empty parse payloads
are skipped; otherwise `parse_sse_usage` runs on the chunk and a found
usage overwrites the current one. -/
def sse_stream_usage_go (parse : List Char → Option Json) :
    List (List Char) → Option UsageTokens → List Char → Option UsageTokens
  | [], usage, _ => usage
  | c :: rest, usage, buf =>
    if usage.isSome then sse_stream_usage_go parse rest usage buf
    else if c.isEmpty then sse_stream_usage_go parse rest usage buf
    else
      match parse_sse_usage parse buf c with
      | (some u, buf') => sse_stream_usage_go parse rest (some u) buf'
      | (none, buf') => sse_stream_usage_go parse rest usage buf'

/-- The usage ultimately recorded (for billing and the request log) for a
streamed SSE body delivered as `chunks`. -/
def sse_stream_usage (parse : List Char → Option Json) (chunks : List (List Char)) :
    Option UsageTokens :=
  sse_stream_usage_go parse chunks none []

/-- Rust `content_type.starts_with("text/event-stream")`. -/
def is_event_stream (content_type : List Char) : Bool :=
  "text/event-stream".toList.isPrefixOf content_type

/-- Rust `want_sse_usage = stream_request && is_event_stream` in
`proxy_upstream_response`: the gate under which the SSE extractor runs. -/
def want_sse_usage (stream_request : Bool) (content_type : List Char) : Bool :=
  stream_request && is_event_stream content_type

/-! ## Models-list shortcut (`proxy::models_list`, `src/proxy.rs`) and
`RouterState::get_model_routes` (`src/state.rs`)

`ModelRoutesFile`'s two `BTreeMap`s become association lists (only key
membership is observable through the claims).  `load_model_routes`, a file
read, is the oracle input `loaded`; `get_model_routes` falls back to
`build_model_routes` over the live snapshot when the file is absent or
unparseable. -/

structure ModelRoutesFileM where
  updated_at_ms : Nat
  models : List (String × List String)
  upstreams : List (String × List String)
deriving DecidableEq, Repr

/-- String comparison used by `Vec<String>::sort()`. -/
def strLE (a b : String) : Bool := a ≤ b

/-- Rust `Vec::dedup`: remove consecutive duplicates. -/
def dedupAdj : List String → List String
  | [] => []
  | [a] => [a]
  | a :: b :: rest =>
    if a = b then dedupAdj (b :: rest) else a :: dedupAdj (b :: rest)

/-- Rust `models.entry(model).or_default().push(id)` on the association-list
model of a `BTreeMap<String, Vec<String>>`. -/
def entryPush (m : List (String × List String)) (key v : String) :
    List (String × List String) :=
  match m with
  | [] => [(key, [v])]
  | (k, vs) :: rest =>
    if k = key then (k, vs ++ [v]) :: rest else (k, vs) :: entryPush rest key v

/-- The upstream loop of `RouterState::build_model_routes`: skip upstreams
with an empty model set, sort-and-dedup each set, record it under the
upstream id and index every model back to the id. -/
def build_routes_go :
    List UpstreamM → List (String × List String) → List (String × List String) →
    List (String × List String) × List (String × List String)
  | [], models, ups => (models, ups)
  | u :: rest, models, ups =>
    if u.models = [] then build_routes_go rest models ups
    else
      let model_list := dedupAdj (u.models.mergeSort strLE)
      build_routes_go rest
        (model_list.foldl (fun m mo => entryPush m mo u.id) models)
        (ups ++ [(u.id, model_list)])

/-- Rust `RouterState::build_model_routes`: derive the routing table from the
snapshot, then sort-and-dedup each inverse entry. -/
def build_model_routes (snap : RouterSnapshotM) (now_ms : Nat) :
    ModelRoutesFileM :=
  let built := build_routes_go snap.upstreams [] []
  ⟨now_ms, built.1.map (fun p => (p.1, dedupAdj (p.2.mergeSort strLE))), built.2⟩

/-- Rust `RouterState::get_model_routes`: the persisted file when it loads, else
the snapshot-derived table. -/
def get_model_routes (loaded : Option ModelRoutesFileM)
    (snap : RouterSnapshotM) (now_ms : Nat) : ModelRoutesFileM :=
  match loaded with
  | some routes => routes
  | none => build_model_routes snap now_ms

/-- The sorted model ids of `proxy::models_list`:
`routes.models.keys().cloned().collect()` then `sort()`. -/
def modelIdsOf (routes : ModelRoutesFileM) : List String :=
  (routes.models.map Prod.fst).mergeSort strLE

/-- One `{ "id": id, "object": "model" }` entry. -/
def modelEntry (id : String) : Json :=
  .jobj [("id", .jstr id), ("object", .jstr "model")]

/-- Rust `proxy::models_list`: status `200` and the
`{object:"list", data:[...]}` body over the sorted model ids. -/
def models_list (routes : ModelRoutesFileM) : Nat × Json :=
  (200, .jobj [("object", .jstr "list"),
               ("data", .jarr ((modelIdsOf routes).map modelEntry))])

/-- What the specification says the model ids should be: the snapshot's
aggregated model set, sorted.  (Comparison definition for the refinement
claim; written from the spec sentence, not from the code.) -/
def spec_snapshot_model_ids (snap : RouterSnapshotM) : List String :=
  dedupAdj (((snap.upstreams.map (fun u => u.models)).flatten).mergeSort strLE)

/-! ## Shared arithmetic lemmas for the breaker -/

/-- The wrapped `u32` computation `streak - 1` after a non-wrapping bump:
`((s0 + 1) % 2^32 + (2^32 - 1)) % 2^32 = s0` when `s0 + 1 < 2^32`. -/
lemma wrapping_pred (s0 : Nat) (h : s0 + 1 < U32MOD) :
    (s0 + 1 + (U32MOD - 1)) % U32MOD = s0 := by
  have hpos : 0 < U32MOD := by decide
  have hsum : s0 + 1 + (U32MOD - 1) = s0 + U32MOD := by omega
  rw [hsum, Nat.add_mod_right]
  exact Nat.mod_eq_of_lt (by omega)

/-- Rust `ban_key` in closed form under a non-wrapping streak bump. -/
lemma ban_key_eq (ban : BanConfigM) (k : KeyStateM) (base now : Nat)
    (hk : k.fail_streak + 1 < U32MOD) :
    ban_key ban k base now =
      { k with
        fail_streak := k.fail_streak + 1,
        cooldown_until_ms :=
          satAdd64 now
            (satMul64 base (2 ^ min k.fail_streak (min ban.max_backoff_pow 30))) } := by
  simp only [ban_key, Nat.mod_eq_of_lt hk, wrapping_pred k.fail_streak hk,
    Nat.shiftLeft_eq, one_mul]

/-- Rust `ban_upstream` in closed form under a non-wrapping streak bump. -/
lemma ban_upstream_eq (ban : BanConfigM) (u : UpstreamM) (base now : Nat)
    (hu : u.fail_streak + 1 < U32MOD) :
    ban_upstream ban u base now =
      { u with
        fail_streak := u.fail_streak + 1,
        cooldown_until_ms :=
          satAdd64 now
            (satMul64 base (2 ^ min u.fail_streak (min ban.max_backoff_pow 30))) } := by
  simp only [ban_upstream, Nat.mod_eq_of_lt hu, wrapping_pred u.fail_streak hu,
    Nat.shiftLeft_eq, one_mul]

/-- The saturating backoff value is bracketed by `now + base` (the streak-1
backoff) and `now + base * 2^pow`, both clamped at `u64::MAX`. -/
lemma backoff_bounds (base now pow : Nat) (hb : base ≤ U64MAX) (hn : now ≤ U64MAX) :
    min (now + base) U64MAX ≤ satAdd64 now (satMul64 base (2 ^ pow)) ∧
    satAdd64 now (satMul64 base (2 ^ pow)) ≤ min (now + base * 2 ^ pow) U64MAX := by
  have h1 : 0 < 2 ^ pow := Nat.two_pow_pos pow
  have h2 : base * 1 ≤ base * 2 ^ pow := Nat.mul_le_mul (Nat.le_refl base) h1
  rw [Nat.mul_one] at h2
  simp only [satAdd64, satMul64]
  omega

/-- Claim C3: after a breaker event whose post-bump streak is
`s = fail_streak + 1 ≥ 1` (no `u32` wrap), the subject's cooldown is set to
`now + base * 2^min(s-1, min(max_backoff_pow, 30))` with saturating
multiplication and addition, hence lies between `now + base` and
`now + base * 2^min(s-1, max_pow)`, with saturation — for credential
(`ban_key`) and upstream (`ban_upstream`) alike. -/
theorem ban_backoff_formula (ban : BanConfigM) (k : KeyStateM) (u : UpstreamM)
    (base now : Nat)
    (hk : k.fail_streak + 1 < U32MOD) (hu : u.fail_streak + 1 < U32MOD)
    (hb : base ≤ U64MAX) (hn : now ≤ U64MAX) :
    ((ban_key ban k base now).fail_streak = k.fail_streak + 1 ∧
      (ban_key ban k base now).cooldown_until_ms =
        satAdd64 now (satMul64 base (2 ^ min k.fail_streak (min ban.max_backoff_pow 30))) ∧
      min (now + base) U64MAX ≤ (ban_key ban k base now).cooldown_until_ms ∧
      (ban_key ban k base now).cooldown_until_ms ≤
        min (now + base * 2 ^ min k.fail_streak (min ban.max_backoff_pow 30)) U64MAX) ∧
    ((ban_upstream ban u base now).fail_streak = u.fail_streak + 1 ∧
      (ban_upstream ban u base now).cooldown_until_ms =
        satAdd64 now (satMul64 base (2 ^ min u.fail_streak (min ban.max_backoff_pow 30))) ∧
      min (now + base) U64MAX ≤ (ban_upstream ban u base now).cooldown_until_ms ∧
      (ban_upstream ban u base now).cooldown_until_ms ≤
        min (now + base * 2 ^ min u.fail_streak (min ban.max_backoff_pow 30)) U64MAX) := by
  rw [ban_key_eq ban k base now hk, ban_upstream_eq ban u base now hu]
  have bk := backoff_bounds base now (min k.fail_streak (min ban.max_backoff_pow 30)) hb hn
  have bu := backoff_bounds base now (min u.fail_streak (min ban.max_backoff_pow 30)) hb hn
  exact ⟨⟨rfl, rfl, bk.1, bk.2⟩, ⟨rfl, rfl, bu.1, bu.2⟩⟩

/-- Witness for C3 at concrete inputs. -/
theorem ban_backoff_formula_witness :
    ((ban_key ⟨1000, 7000, 3000, 5000, 5⟩ ⟨"k", "Bearer k", 0, 2⟩ 1000 50).fail_streak = 3 ∧
      (ban_key ⟨1000, 7000, 3000, 5000, 5⟩ ⟨"k", "Bearer k", 0, 2⟩ 1000 50).cooldown_until_ms =
        satAdd64 50 (satMul64 1000 (2 ^ min 2 (min 5 30))) ∧
      min (50 + 1000) U64MAX ≤
        (ban_key ⟨1000, 7000, 3000, 5000, 5⟩ ⟨"k", "Bearer k", 0, 2⟩ 1000 50).cooldown_until_ms ∧
      (ban_key ⟨1000, 7000, 3000, 5000, 5⟩ ⟨"k", "Bearer k", 0, 2⟩ 1000 50).cooldown_until_ms ≤
        min (50 + 1000 * 2 ^ min 2 (min 5 30)) U64MAX) ∧
    ((ban_upstream ⟨1000, 7000, 3000, 5000, 5⟩ ⟨"u", "http://u", 1, [], 0, [], 0, 0⟩ 1000 50).fail_streak = 1 ∧
      (ban_upstream ⟨1000, 7000, 3000, 5000, 5⟩ ⟨"u", "http://u", 1, [], 0, [], 0, 0⟩ 1000 50).cooldown_until_ms =
        satAdd64 50 (satMul64 1000 (2 ^ min 0 (min 5 30))) ∧
      min (50 + 1000) U64MAX ≤
        (ban_upstream ⟨1000, 7000, 3000, 5000, 5⟩ ⟨"u", "http://u", 1, [], 0, [], 0, 0⟩ 1000 50).cooldown_until_ms ∧
      (ban_upstream ⟨1000, 7000, 3000, 5000, 5⟩ ⟨"u", "http://u", 1, [], 0, [], 0, 0⟩ 1000 50).cooldown_until_ms ≤
        min (50 + 1000 * 2 ^ min 0 (min 5 30)) U64MAX) :=
  ban_backoff_formula ⟨1000, 7000, 3000, 5000, 5⟩ ⟨"k", "Bearer k", 0, 2⟩
    ⟨"u", "http://u", 1, [], 0, [], 0, 0⟩ 1000 50
    (by decide) (by decide) (by decide) (by decide)

/-! ## C10: `apply_usage` with an unrepresentable token count -/

/-- Claim C10: when `total_tokens` exceeds `i64::MAX`, `apply_usage`
returns `None` and leaves the store — balances and the persistence queue —
untouched. -/
theorem apply_usage_overflow (st : BillingStoreM) (key : String)
    (total_tokens : Nat) (h : (total_tokens : Int) > I64MAX) :
    apply_usage st key total_tokens = (none, st) := by
  unfold apply_usage
  rw [if_neg (by omega)]

/-- Witness for C10: `2^63` tokens cannot be billed and the store is
unchanged. -/
theorem apply_usage_overflow_witness :
    (((2 ^ 63 : Nat) : Int) > I64MAX) ∧
      apply_usage ⟨[("caller", 5)], []⟩ "caller" (2 ^ 63) =
        (none, ⟨[("caller", 5)], []⟩) :=
  ⟨by decide, apply_usage_overflow _ _ _ (by decide)⟩

/-! ## C4: the breaker outcome mapping (corrected) -/

/-- Demo ban configuration for concrete evaluations. -/
def demoBan : BanConfigM := ⟨1000, 7000, 3000, 5000, 5⟩

/-- Demo upstream with a non-trivial streak and cooldown. -/
def demoUp : UpstreamM := ⟨"u", "http://u.test", 1, [], 0, ["m"], 77, 3⟩

/-- Demo credential with a non-trivial streak and cooldown. -/
def demoKey : KeyStateM := ⟨"k", "Bearer k", 55, 2⟩

/-- All-zero response counters. -/
def zeroCounters : ResponseCounters := ⟨0, 0, 0, 0⟩

/-- Counterexample for C4: the claim says every status `S >= 500` bumps the
upstream's streak and applies server-error backoff, but the `http` crate
admits statuses up to 999 and the code tests `is_server_error`
(`500..=599`): at `S = 600` the upstream's streak stays zeroed and no
backoff is applied. -/
theorem on_upstream_status_600_counterexample :
    ¬ ((on_upstream_status demoBan demoUp demoKey zeroCounters zeroCounters
          600 1000).upstream.fail_streak = 1 ∧
       (on_upstream_status demoBan demoUp demoKey zeroCounters zeroCounters
          600 1000).upstream.cooldown_until_ms =
         satAdd64 1000 demoBan.server_error_ms) := by
  decide

/-- Claim C4 (amended: the server-error branch is `500 <= S <= 599`, and
statuses `600..=999` fall into the streak-clearing default branch): on any
observed response the upstream's streak and cooldown are zeroed; then 429
applies rate-limit backoff to the credential, 401/403 applies auth-error
backoff to the credential, a 5xx (`500..=599`) bumps the (just-zeroed)
upstream streak to exactly 1 with cooldown `now + server_error_ms`
saturated, and every other status leaves the credential's cooldown alone
and zeroes its streak. -/
theorem on_upstream_status_cases (ban : BanConfigM) (u : UpstreamM)
    (k : KeyStateM) (us gs : ResponseCounters) (status now : Nat)
    (hk : k.fail_streak + 1 < U32MOD) (hbase : ban.server_error_ms ≤ U64MAX) :
    (status = 429 →
      (on_upstream_status ban u k us gs status now).key =
        { k with
          fail_streak := k.fail_streak + 1,
          cooldown_until_ms :=
            satAdd64 now (satMul64 ban.rate_limit_ms
              (2 ^ min k.fail_streak (min ban.max_backoff_pow 30))) } ∧
      (on_upstream_status ban u k us gs status now).upstream.fail_streak = 0 ∧
      (on_upstream_status ban u k us gs status now).upstream.cooldown_until_ms = 0) ∧
    (status = 401 ∨ status = 403 →
      (on_upstream_status ban u k us gs status now).key =
        { k with
          fail_streak := k.fail_streak + 1,
          cooldown_until_ms :=
            satAdd64 now (satMul64 ban.auth_error_ms
              (2 ^ min k.fail_streak (min ban.max_backoff_pow 30))) } ∧
      (on_upstream_status ban u k us gs status now).upstream.fail_streak = 0 ∧
      (on_upstream_status ban u k us gs status now).upstream.cooldown_until_ms = 0) ∧
    (500 ≤ status → status ≤ 599 →
      (on_upstream_status ban u k us gs status now).key = k ∧
      (on_upstream_status ban u k us gs status now).upstream.fail_streak = 1 ∧
      (on_upstream_status ban u k us gs status now).upstream.cooldown_until_ms =
        satAdd64 now ban.server_error_ms) ∧
    (status ≠ 429 → status ≠ 401 → status ≠ 403 → ¬(500 ≤ status ∧ status ≤ 599) →
      (on_upstream_status ban u k us gs status now).key.fail_streak = 0 ∧
      (on_upstream_status ban u k us gs status now).key.cooldown_until_ms =
        k.cooldown_until_ms ∧
      (on_upstream_status ban u k us gs status now).upstream.fail_streak = 0 ∧
      (on_upstream_status ban u k us gs status now).upstream.cooldown_until_ms = 0) := by
  refine ⟨?_, ?_, ?_, ?_⟩
  · rintro rfl
    have hr : on_upstream_status ban u k us gs 429 now =
        ⟨{ u with fail_streak := 0, cooldown_until_ms := 0 },
         ban_key ban k ban.rate_limit_ms now,
         inc_status us 429, inc_status gs 429⟩ := by
      simp [on_upstream_status]
    rw [hr, ban_key_eq ban k ban.rate_limit_ms now hk]
    exact ⟨rfl, rfl, rfl⟩
  · rintro (rfl | rfl)
    · have hr : on_upstream_status ban u k us gs 401 now =
          ⟨{ u with fail_streak := 0, cooldown_until_ms := 0 },
           ban_key ban k ban.auth_error_ms now,
           inc_status us 401, inc_status gs 401⟩ := by
        simp [on_upstream_status]
      rw [hr, ban_key_eq ban k ban.auth_error_ms now hk]
      exact ⟨rfl, rfl, rfl⟩
    · have hr : on_upstream_status ban u k us gs 403 now =
          ⟨{ u with fail_streak := 0, cooldown_until_ms := 0 },
           ban_key ban k ban.auth_error_ms now,
           inc_status us 403, inc_status gs 403⟩ := by
        simp [on_upstream_status]
      rw [hr, ban_key_eq ban k ban.auth_error_ms now hk]
      exact ⟨rfl, rfl, rfl⟩
  · intro h5 h5'
    have h1 : status ≠ 429 := by omega
    have h2 : ¬(status = 401 ∨ status = 403) := by omega
    have h3 : is_server_error status = true := by
      simp only [is_server_error, Bool.and_eq_true, decide_eq_true_eq]
      omega
    have hr : on_upstream_status ban u k us gs status now =
        ⟨ban_upstream ban { u with fail_streak := 0, cooldown_until_ms := 0 }
           ban.server_error_ms now,
         k, inc_status us status, inc_status gs status⟩ := by
      simp only [on_upstream_status, if_neg h1, if_neg h2, if_pos h3]
    have hz : ({ u with fail_streak := 0, cooldown_until_ms := 0 } :
        UpstreamM).fail_streak + 1 < U32MOD := by
      show 0 + 1 < U32MOD
      decide
    rw [hr, ban_upstream_eq _ _ _ _ hz]
    refine ⟨rfl, rfl, ?_⟩
    show satAdd64 now (satMul64 ban.server_error_ms (2 ^ min 0 (min ban.max_backoff_pow 30)))
        = satAdd64 now ban.server_error_ms
    rw [Nat.zero_min, pow_zero]
    simp only [satMul64, Nat.mul_one]
    rw [Nat.min_eq_left hbase]
  · intro h1 h2 h3 h4
    have h2' : ¬(status = 401 ∨ status = 403) := by omega
    have h3' : ¬(is_server_error status = true) := by
      simp only [is_server_error, Bool.and_eq_true, decide_eq_true_eq]
      omega
    have hr : on_upstream_status ban u k us gs status now =
        ⟨{ u with fail_streak := 0, cooldown_until_ms := 0 },
         { k with fail_streak := 0 },
         inc_status us status, inc_status gs status⟩ := by
      simp only [on_upstream_status, if_neg h1, if_neg h2', if_neg h3']
    rw [hr]
    exact ⟨rfl, rfl, rfl, rfl⟩

/-- Witness for C4 (amended) at a concrete 503 response. -/
theorem on_upstream_status_cases_witness :
    (on_upstream_status demoBan demoUp demoKey zeroCounters zeroCounters
        503 1000).key = demoKey ∧
    (on_upstream_status demoBan demoUp demoKey zeroCounters zeroCounters
        503 1000).upstream.fail_streak = 1 ∧
    (on_upstream_status demoBan demoUp demoKey zeroCounters zeroCounters
        503 1000).upstream.cooldown_until_ms = satAdd64 1000 demoBan.server_error_ms :=
  ((on_upstream_status_cases demoBan demoUp demoKey zeroCounters zeroCounters
      503 1000 (by decide) (by decide)).2.2.1 (by decide) (by decide))

/-! ## C2: soundness of the selector -/

/-- A credential returned by `select_key` was eligible (cooldown elapsed)
and really is one of the upstream's credentials. -/
lemma select_key_sound (u : UpstreamM) (now : Nat) (k : KeyStateM)
    (h : select_key u now = some k) :
    k.cooldown_until_ms ≤ now ∧ k ∈ u.keys := by
  unfold select_key at h
  by_cases hn : u.keys.length = 0
  · simp [hn] at h
  · rw [if_neg hn] at h
    obtain ⟨i, hmem, hf⟩ := List.exists_of_findSome?_eq_some h
    dsimp only at hf
    have hidx : (u.key_rr + i) % u.keys.length < u.keys.length :=
      Nat.mod_lt _ (Nat.pos_of_ne_zero hn)
    by_cases hc : (u.keys.getD ((u.key_rr + i) % u.keys.length) dummyKey).cooldown_until_ms ≤ now
    · rw [if_pos hc] at hf
      cases hf
      refine ⟨hc, ?_⟩
      rw [List.getD_eq_getElem?_getD, List.getElem?_eq_getElem hidx]
      exact List.getElem_mem hidx
    · rw [if_neg hc] at hf
      cases hf

/-- A slot that produces a selection produced an eligible one. -/
lemma slot_try_sound (snap : RouterSnapshotM) (model : String)
    (now cursor i : Nat) (sel : SelectedM)
    (h : slot_try snap model now cursor i = some sel) :
    model ∈ sel.upstream.models ∧ sel.upstream.cooldown_until_ms ≤ now ∧
    sel.key.cooldown_until_ms ≤ now ∧ sel.key ∈ sel.upstream.keys := by
  unfold slot_try at h
  dsimp only at h
  split at h
  case isTrue hm =>
    split at h
    case isTrue hcd => cases h
    case isFalse hcd =>
      split at h
      case h_1 k hsel =>
        cases h
        obtain ⟨hck, hkm⟩ := select_key_sound _ _ _ hsel
        exact ⟨hm, Nat.le_of_not_lt hcd, hck, hkm⟩
      case h_2 => cases h
  case isFalse hm => cases h

/-- Claim C2: a returned selection was eligible at the moment the cooldowns
were read — the upstream advertises the model, both cooldowns have elapsed,
and the credential belongs to the upstream — and it was found within the
`schedule.length` slots examined from the fetch-and-add cursor; the search
returns `None` exactly when the schedule is empty or every examined slot is
skipped. -/
theorem select_for_model_spec (snap : RouterSnapshotM) (cursor : Nat)
    (model : String) (now : Nat) :
    (∀ sel, select_for_model snap cursor model now = some sel →
        model ∈ sel.upstream.models ∧
        sel.upstream.cooldown_until_ms ≤ now ∧
        sel.key.cooldown_until_ms ≤ now ∧
        sel.key ∈ sel.upstream.keys ∧
        ∃ i, i < snap.schedule.length ∧
          slot_try snap model now cursor i = some sel) ∧
    (select_for_model snap cursor model now = none ↔
        ∀ i, i < snap.schedule.length →
          slot_try snap model now cursor i = none) := by
  constructor
  · intro sel h
    unfold select_for_model at h
    by_cases hl : snap.schedule.length = 0
    · rw [if_pos hl] at h
      cases h
    · rw [if_neg hl] at h
      obtain ⟨i, hmem, hf⟩ := List.exists_of_findSome?_eq_some h
      obtain ⟨h1, h2, h3, h4⟩ := slot_try_sound snap model now cursor i sel hf
      exact ⟨h1, h2, h3, h4, i, List.mem_range.mp hmem, hf⟩
  · unfold select_for_model
    by_cases hl : snap.schedule.length = 0
    · rw [if_pos hl]
      simp [hl]
    · rw [if_neg hl]
      simp [List.findSome?_eq_none_iff, List.mem_range]

/-- Demo credential for concrete selections. -/
def demoSelKey : KeyStateM := ⟨"k1", "Bearer k1", 0, 0⟩

/-- Demo upstream advertising model `gpt`. -/
def demoSelUp : UpstreamM := ⟨"u1", "http://up.test", 1, [demoSelKey], 0, ["gpt"], 0, 0⟩

/-- Demo one-upstream snapshot. -/
def demoSnap : RouterSnapshotM := ⟨[demoSelUp], [("u1", 0)], [0]⟩

/-- Witness for C2 at a concrete snapshot. -/
theorem select_for_model_spec_witness :
    "gpt" ∈ (SelectedM.mk demoSelUp demoSelKey).upstream.models ∧
    (SelectedM.mk demoSelUp demoSelKey).upstream.cooldown_until_ms ≤ 5 ∧
    (SelectedM.mk demoSelUp demoSelKey).key.cooldown_until_ms ≤ 5 ∧
    (SelectedM.mk demoSelUp demoSelKey).key ∈ (SelectedM.mk demoSelUp demoSelKey).upstream.keys ∧
    ∃ i, i < demoSnap.schedule.length ∧
      slot_try demoSnap "gpt" 5 0 i = some (SelectedM.mk demoSelUp demoSelKey) :=
  (select_for_model_spec demoSnap 0 "gpt" 5).1 _ (by decide)

/-! ## C6: the bounded 429 retry loop -/

/-- Invariant of `forward_loop` along the reachable states
(`attempt = retry_count ≤ MAX_RETRIES`): a forwarded response of status `s`
after `r` retries satisfies the claim's bookkeeping. -/
lemma forward_loop_forwarded (outcome : Nat → OutcomeM)
    (reselect : Nat → Option SelectedM) :
    ∀ fuel rc s r, MAX_RETRIES - rc ≤ fuel → rc ≤ MAX_RETRIES →
      forward_loop outcome reselect rc rc = .forwarded s r →
      rc ≤ r ∧ r ≤ MAX_RETRIES ∧ outcome r = .resp s ∧
        (s = 429 → r = MAX_RETRIES ∨ reselect r = none) ∧
        (∀ i, rc ≤ i → i < r → outcome i = .resp 429 ∧ reselect i ≠ none) := by
  intro fuel
  induction fuel with
  | zero =>
    intro rc s r hfuel hrc h
    rw [forward_loop] at h
    cases ho : outcome rc with
    | resp status =>
      rw [ho] at h
      dsimp only at h
      rw [dif_neg (by omega)] at h
      cases h
      refine ⟨Nat.le_refl _, hrc, ho, ?_, ?_⟩
      · intro hs
        left
        omega
      · intro i hi hi'
        omega
    | net_error =>
      rw [ho] at h
      dsimp only at h
      cases h
    | timed_out =>
      rw [ho] at h
      dsimp only at h
      cases h
  | succ fuel ih =>
    intro rc s r hfuel hrc h
    rw [forward_loop] at h
    cases ho : outcome rc with
    | resp status =>
      rw [ho] at h
      dsimp only at h
      by_cases hcond : status = 429 ∧ rc < MAX_RETRIES
      · rw [dif_pos hcond] at h
        cases hre : reselect rc with
        | some sel =>
          rw [hre] at h
          dsimp only at h
          have hrec := ih (rc + 1) s r (by omega) (by omega) h
          refine ⟨by omega, hrec.2.1, hrec.2.2.1, hrec.2.2.2.1, ?_⟩
          intro i hi hi'
          rcases Nat.eq_or_lt_of_le hi with heq | hlt
          · subst heq
            rw [ho, hcond.1]
            refine ⟨rfl, ?_⟩
            rw [hre]
            exact fun hc => Option.noConfusion hc
          · exact hrec.2.2.2.2 i hlt hi'
        | none =>
          rw [hre] at h
          dsimp only at h
          cases h
          refine ⟨Nat.le_refl _, hrc, ho, fun _ => Or.inr hre, ?_⟩
          intro i hi hi'
          omega
      · rw [dif_neg hcond] at h
        cases h
        refine ⟨Nat.le_refl _, hrc, ho, ?_, ?_⟩
        · intro hs
          left
          omega
        · intro i hi hi'
          omega
    | net_error =>
      rw [ho] at h
      dsimp only at h
      cases h
    | timed_out =>
      rw [ho] at h
      dsimp only at h
      cases h

/-- A selection carries a credential whose cooldown had elapsed. -/
lemma select_some_key_cooldown (snap : RouterSnapshotM) (cursor : Nat)
    (model : String) (now : Nat) (sel : SelectedM)
    (h : select_for_model snap cursor model now = some sel) :
    sel.key.cooldown_until_ms ≤ now := by
  unfold select_for_model at h
  by_cases hl : snap.schedule.length = 0
  · rw [if_pos hl] at h
    cases h
  · rw [if_neg hl] at h
    obtain ⟨i, _, hf⟩ := List.exists_of_findSome?_eq_some h
    exact (slot_try_sound snap model now cursor i sel hf).2.2.1

/-- After `ban_key` with a positive base and a non-saturated clock, the
banned credential's cooldown strictly exceeds `now`. -/
lemma ban_key_makes_ineligible (ban : BanConfigM) (k : KeyStateM)
    (base now : Nat) (hb : 1 ≤ base) (hn : now < U64MAX) :
    now < (ban_key ban k base now).cooldown_until_ms := by
  simp only [ban_key]
  have h1 : 0 < 1 <<< min (((k.fail_streak + 1) % U32MOD + (U32MOD - 1)) % U32MOD)
      (min ban.max_backoff_pow 30) := by
    rw [Nat.shiftLeft_eq, one_mul]
    exact Nat.two_pow_pos _
  have h2 : 0 < base * (1 <<< min (((k.fail_streak + 1) % U32MOD + (U32MOD - 1)) % U32MOD)
      (min ban.max_backoff_pow 30)) := Nat.mul_pos (by omega) h1
  have h3 : 1 ≤ U64MAX := by decide
  simp only [satAdd64, satMul64]
  omega

/-- Claim C6: starting from `(attempt, retry_count) = (0, 0)`, a forwarded
response of status `s` after `r` retries has `r ≤ 5`; the response is the
`r`-th round trip's; if `s = 429` the loop stopped because retries were
exhausted or the selector returned `None` (in which case the 429 response
is forwarded unchanged); every earlier attempt got a 429 and a fresh
selection through the full selector; moreover a selection never carries a
credential still in cooldown — in particular not the credential just banned
by `ban_key` while `rate_limit_ms ≥ 1`. -/
theorem forward_retry_spec (outcome : Nat → OutcomeM)
    (reselect : Nat → Option SelectedM) :
    (∀ s r, forward_loop outcome reselect 0 0 = .forwarded s r →
      r ≤ MAX_RETRIES ∧ outcome r = .resp s ∧
      (s = 429 → r = MAX_RETRIES ∨ reselect r = none) ∧
      (∀ i, i < r → outcome i = .resp 429 ∧ reselect i ≠ none)) ∧
    (∀ snap cursor model now sel banned,
      select_for_model snap cursor model now = some sel →
      now < banned.cooldown_until_ms → sel.key ≠ banned) ∧
    (∀ ban k base now, 1 ≤ base → now < U64MAX →
      now < (ban_key ban k base now).cooldown_until_ms) := by
  refine ⟨?_, ?_, ?_⟩
  · intro s r h
    have := forward_loop_forwarded outcome reselect MAX_RETRIES 0 s r
      (by omega) (by omega) h
    exact ⟨this.2.1, this.2.2.1, this.2.2.2.1,
      fun i hi => this.2.2.2.2 i (Nat.zero_le i) hi⟩
  · intro snap cursor model now sel banned hsel hcool heq
    have h := select_some_key_cooldown snap cursor model now sel hsel
    rw [heq] at h
    omega
  · intro ban k base now hb hn
    exact ban_key_makes_ineligible ban k base now hb hn

/-- Demo transport oracle: a 429 on the first attempt, then a 200. -/
def demoOutcome : Nat → OutcomeM :=
  fun i => if i = 0 then .resp 429 else .resp 200

/-- Demo re-selection oracle: always finds the demo selection. -/
def demoReselect : Nat → Option SelectedM :=
  fun _ => some ⟨demoSelUp, demoSelKey⟩

/-- A credential still in cooldown at `now = 5`. -/
def demoBanned : KeyStateM := ⟨"banned", "Bearer banned", 10, 0⟩

/-- Witness for C6: one 429 retry then a forwarded 200, a cooled-down
credential is never selected, and a just-banned credential is cooling
down. -/
theorem forward_retry_spec_witness :
    ((1 : Nat) ≤ MAX_RETRIES ∧ demoOutcome 1 = .resp 200 ∧
      ((200 : Nat) = 429 → (1 : Nat) = MAX_RETRIES ∨ demoReselect 1 = none) ∧
      (∀ i, i < 1 → demoOutcome i = .resp 429 ∧ demoReselect i ≠ none)) ∧
    (SelectedM.mk demoSelUp demoSelKey).key ≠ demoBanned ∧
    50 < (ban_key demoBan demoKey 1000 50).cooldown_until_ms :=
  ⟨(forward_retry_spec demoOutcome demoReselect).1 200 1
      (by simp [forward_loop, demoOutcome, demoReselect, MAX_RETRIES]),
   (forward_retry_spec demoOutcome demoReselect).2.1 demoSnap 0 "gpt" 5 _
      demoBanned (by decide) (by decide),
   (forward_retry_spec demoOutcome demoReselect).2.2 demoBan demoKey 1000 50
      (by decide) (by decide)⟩

/-! ## C9: the Bearer prefix is optional in `extract_api_key` -/

/-- Rust `str::trim` is idempotent. -/
lemma trimChars_idem (s : List Char) : trimChars (trimChars s) = trimChars s := by
  unfold trimChars trimCharsPre
  have hpre : (s.dropWhile isWs).rdropWhile isWs <+: s.dropWhile isWs :=
    List.rdropWhile_prefix isWs (s.dropWhile isWs)
  have hstep : ((s.dropWhile isWs).rdropWhile isWs).dropWhile isWs
      = (s.dropWhile isWs).rdropWhile isWs := by
    rw [List.dropWhile_eq_self_iff]
    intro hl
    have hlA : 0 < (s.dropWhile isWs).length := Nat.lt_of_lt_of_le hl hpre.length_le
    have hget : ((s.dropWhile isWs).rdropWhile isWs).get ⟨0, hl⟩
        = (s.dropWhile isWs).get ⟨0, hlA⟩ := by
      simp only [List.get_eq_getElem]
      exact hpre.getElem hl
    rw [hget]
    exact List.dropWhile_get_zero_not (p := isWs) s hlA
  rw [hstep, List.rdropWhile_idempotent]

/-- Claim C9: with no `X-API-Key` header and an `Authorization` value whose
trim is non-empty and starts with neither `Bearer ` nor `bearer `, the
whole trimmed `Authorization` value becomes the billing key — the Bearer
prefix is optional. -/
theorem extract_api_key_bearer_optional (a : List Char)
    (hne : trimChars a ≠ [])
    (hu : ¬ bearerUC.isPrefixOf (trimChars a))
    (hl : ¬ bearerLC.isPrefixOf (trimChars a)) :
    extract_api_key none (some a) = some (trimChars a) := by
  show auth_api_key (some a) = some (trimChars a)
  unfold auth_api_key
  dsimp only
  rw [if_neg hne]
  have h1 : stripPre bearerUC (trimChars a) = none := by
    unfold stripPre
    rw [if_neg hu]
  have h2 : stripPre bearerLC (trimChars a) = none := by
    unfold stripPre
    rw [if_neg hl]
  rw [h1, h2]
  simp only [Option.orElse, Option.getD]
  rw [trimChars_idem, if_neg hne]

/-- Witness for C9: `" sk-test-123 "` (no Bearer tag) is accepted whole. -/
theorem extract_api_key_bearer_optional_witness :
    trimChars " sk-test-123 ".toList ≠ [] ∧
    ¬ bearerUC.isPrefixOf (trimChars " sk-test-123 ".toList) ∧
    ¬ bearerLC.isPrefixOf (trimChars " sk-test-123 ".toList) ∧
    extract_api_key none (some " sk-test-123 ".toList) =
      some (trimChars " sk-test-123 ".toList) :=
  ⟨by decide, by decide, by decide,
   extract_api_key_bearer_optional _ (by decide) (by decide) (by decide)⟩

/-! ## C8: request-body buffering bounds -/

/-- Every chunk of the body stream was read successfully. -/
def allData : List BodyChunk → Bool
  | [] => true
  | .data _ :: rest => allData rest
  | .read_error :: _ => false

/-- Total number of body bytes delivered by the data chunks. -/
def totalLen : List BodyChunk → Nat
  | [] => 0
  | .data len :: rest => len + totalLen rest
  | .read_error :: rest => totalLen rest

/-- On an error-free stream, buffering succeeds with the total length iff
it stays within the cap, and hits `413` otherwise. -/
lemma read_request_body_data (chunks : List BodyChunk) :
    ∀ acc, acc ≤ MAX_REQUEST_BODY_BYTES → allData chunks = true →
      read_request_body chunks acc =
        if acc + totalLen chunks ≤ MAX_REQUEST_BODY_BYTES then
          .ok (acc + totalLen chunks)
        else .error ⟨413, "body_too_large"⟩ := by
  induction chunks with
  | nil =>
    intro acc hacc _
    simp only [read_request_body, totalLen, Nat.add_zero]
    rw [if_pos hacc]
  | cons c rest ih =>
    intro acc hacc hall
    cases c with
    | data len =>
      simp only [read_request_body, totalLen]
      have hUM : MAX_REQUEST_BODY_BYTES < U64MAX := by decide
      by_cases hov : min (acc + len) U64MAX > MAX_REQUEST_BODY_BYTES
      · rw [if_pos hov, if_neg (by omega)]
      · rw [if_neg hov, ih (acc + len) (by omega) hall, Nat.add_assoc]
    | read_error => simp [allData] at hall

/-- A read error reached before the cap is exceeded yields
`502 body_read_error`. -/
lemma read_request_body_err (pre : List BodyChunk) :
    ∀ rest acc, allData pre = true →
      acc + totalLen pre ≤ MAX_REQUEST_BODY_BYTES →
      read_request_body (pre ++ .read_error :: rest) acc =
        .error ⟨502, "body_read_error"⟩ := by
  induction pre with
  | nil =>
    intro rest acc _ _
    simp [read_request_body]
  | cons c pre' ih =>
    intro rest acc hall hle
    cases c with
    | data len =>
      simp only [totalLen] at hle
      simp only [List.cons_append, read_request_body]
      have hUM : MAX_REQUEST_BODY_BYTES < U64MAX := by decide
      rw [if_neg (by omega)]
      exact ih rest (acc + len) hall (by omega)
    | read_error => simp [allData] at hall

/-- Claim C8: body buffering accepts at most 16 MiB — an error-free body of
total length within `16 * 1024 * 1024` bytes (in particular exactly that
size) buffers successfully, an accumulated length beyond it is rejected
with `413 body_too_large`, and a chunk read error reached before overflow
is rejected with `502 body_read_error`. -/
theorem read_request_body_spec :
    (∀ chunks, allData chunks = true →
        totalLen chunks ≤ MAX_REQUEST_BODY_BYTES →
        read_request_body chunks 0 = .ok (totalLen chunks)) ∧
    (∀ chunks, allData chunks = true →
        MAX_REQUEST_BODY_BYTES < totalLen chunks →
        read_request_body chunks 0 = .error ⟨413, "body_too_large"⟩) ∧
    (∀ pre rest, allData pre = true →
        totalLen pre ≤ MAX_REQUEST_BODY_BYTES →
        read_request_body (pre ++ .read_error :: rest) 0 =
          .error ⟨502, "body_read_error"⟩) ∧
    MAX_REQUEST_BODY_BYTES = 16 * 1024 * 1024 := by
  refine ⟨?_, ?_, ?_, rfl⟩
  · intro chunks hall hle
    rw [read_request_body_data chunks 0 (by omega) hall, Nat.zero_add, if_pos hle]
  · intro chunks hall hgt
    rw [read_request_body_data chunks 0 (by omega) hall, Nat.zero_add, if_neg (by omega)]
  · intro pre rest hall hle
    exact read_request_body_err pre rest 0 hall (by omega)

/-- Witness for C8: exactly 16 MiB succeeds, one byte more is 413, and an
early read error is 502. -/
theorem read_request_body_spec_witness :
    read_request_body [.data (16 * 1024 * 1024)] 0 =
      .ok (totalLen [.data (16 * 1024 * 1024)]) ∧
    read_request_body [.data (16 * 1024 * 1024 + 1)] 0 =
      .error ⟨413, "body_too_large"⟩ ∧
    read_request_body ([.data 5] ++ .read_error :: []) 0 =
      .error ⟨502, "body_read_error"⟩ :=
  ⟨read_request_body_spec.1 _ (by decide) (by decide),
   read_request_body_spec.2.1 _ (by decide) (by decide),
   read_request_body_spec.2.2.1 [.data 5] [] (by decide) (by decide)⟩

/-! ## C7: weighted schedule construction -/

/-- Rust `List.getD` inside the left part of an append. -/
lemma getD_append_left {α : Type} (l l' : List α) (d : α) (n : Nat)
    (h : n < l.length) : (l ++ l').getD n d = l.getD n d := by
  rw [List.getD_eq_getElem?_getD, List.getD_eq_getElem?_getD,
    List.getElem?_append, if_pos h]

/-- Rust `List.getD` inside the right part of an append. -/
lemma getD_append_right {α : Type} (l l' : List α) (d : α) (n : Nat)
    (h : l.length ≤ n) : (l ++ l').getD n d = l'.getD (n - l.length) d := by
  rw [List.getD_eq_getElem?_getD, List.getD_eq_getElem?_getD,
    List.getElem?_append, if_neg (by omega)]

/-- Occurrences of `n` in `replicate w n`, with the equation oriented on the
counted element. -/
lemma count_replicate_nat (j n w : Nat) :
    List.count j (List.replicate w n) = if j = n then w else 0 := by
  rw [List.count_replicate]
  by_cases h : j = n
  · subst h
    simp
  · rw [if_neg (by simpa using Ne.symm h), if_neg h]

/-- Invariant of the `build_go` fold: from well-formed accumulators, a
successful build extends them with one upstream per remaining config,
clamped weights, `weight_i` schedule copies of index `i`, and fresh ids. -/
lemma build_go_ok (url_ok header_ok : String → Bool) (store : String → List String) :
    ∀ (rest : List UpstreamConfigM) (ups : List UpstreamM)
      (idx : List (String × Nat)) (sched : List Nat) (snap : RouterSnapshotM),
      idx.map Prod.fst = ups.map (fun u => u.id) →
      (ups.map (fun u => u.id)).Nodup →
      sched.length = (ups.map (fun u => u.weight)).sum →
      (∀ j, sched.count j =
          if j < ups.length then (ups.getD j dummyUpstream).weight else 0) →
      (∀ e ∈ sched, e < ups.length) →
      build_go url_ok header_ok store rest ups idx sched = .ok snap →
      snap.upstreams.length = ups.length + rest.length ∧
      snap.upstreams.map (fun u => u.id)
        = ups.map (fun u => u.id) ++ rest.map (fun c => c.id) ∧
      (snap.upstreams.map (fun u => u.id)).Nodup ∧
      snap.schedule.length = (snap.upstreams.map (fun u => u.weight)).sum ∧
      (∀ j, snap.schedule.count j =
          if j < snap.upstreams.length then
            (snap.upstreams.getD j dummyUpstream).weight else 0) ∧
      (∀ e ∈ snap.schedule, e < snap.upstreams.length) ∧
      (∀ j, j < ups.length →
          snap.upstreams.getD j dummyUpstream = ups.getD j dummyUpstream) ∧
      (∀ j, j < rest.length →
          (snap.upstreams.getD (ups.length + j) dummyUpstream).weight
            = clampWeight (((rest.getD j dummyConfig).weight).getD 1)) := by
  intro rest
  induction rest with
  | nil =>
    intro ups idx sched snap hidx hnd hlen hcount hbound h
    cases h
    refine ⟨by simp, by simp, hnd, hlen, hcount, hbound, fun j _ => rfl, ?_⟩
    intro j hj
    exact absurd hj (by simp)
  | cons c rest ih =>
    intro ups idx sched snap hidx hnd hlen hcount hbound h
    rw [build_go] at h
    by_cases hdup : idx.any (fun p => p.1 = c.id)
    · rw [if_pos hdup] at h
      cases h
    · rw [if_neg hdup] at h
      dsimp only at h
      unfold parse_upstream at h
      by_cases hurl : url_ok c.base_url
      · rw [if_pos hurl] at h
        dsimp only at h
        cases hks : build_key_states header_ok (store c.id) with
        | error e =>
          rw [hks] at h
          cases h
        | ok ks =>
          rw [hks] at h
          dsimp only at h
          have hfresh : c.id ∉ ups.map (fun u => u.id) := by
            intro hmem
            rw [← hidx] at hmem
            obtain ⟨p, hp, hpid⟩ := List.mem_map.mp hmem
            exact hdup (List.any_eq_true.mpr ⟨p, hp, by simp [hpid]⟩)
          have hrec := ih (ups ++ [⟨c.id, c.base_url, clampWeight (c.weight.getD 1),
              ks, 0, [], 0, 0⟩])
            (idx ++ [(c.id, ups.length)])
            (sched ++ List.replicate (clampWeight (c.weight.getD 1)) ups.length)
            snap ?_ ?_ ?_ ?_ ?_ h
          · obtain ⟨H1, H2, H3, H4, H5, H6, H7, H8⟩ := hrec
            refine ⟨?_, ?_, H3, H4, H5, H6, ?_, ?_⟩
            · simp only [List.length_append, List.length_cons, List.length_nil] at H1 ⊢
              omega
            · simp only [List.map_append, List.map_cons, List.map_nil] at H2 ⊢
              rw [H2]
              simp
            · intro j hj
              rw [H7 j (by simp only [List.length_append, List.length_cons,
                  List.length_nil]; omega)]
              exact getD_append_left ups _ dummyUpstream j hj
            · intro j hj
              cases j with
              | zero =>
                have hp := H7 ups.length (by
                  simp only [List.length_append, List.length_cons, List.length_nil]
                  omega)
                rw [Nat.add_zero, hp,
                  getD_append_right ups _ dummyUpstream ups.length (Nat.le_refl _)]
                simp
              | succ j' =>
                have hs := H8 j' (by
                  simp only [List.length_cons] at hj
                  omega)
                simp only [List.length_append, List.length_cons, List.length_nil] at hs
                rw [show ups.length + (j' + 1) = ups.length + 1 + j' by omega, hs]
                simp
          · simp [hidx]
          · simp only [List.map_append, List.map_cons, List.map_nil]
            rw [List.nodup_append]
            refine ⟨hnd, List.nodup_singleton _, ?_⟩
            intro a ha hb
            simp only [List.mem_singleton] at hb
            subst hb
            exact hfresh ha
          · simp only [List.length_append, List.length_replicate, List.map_append,
              List.map_cons, List.map_nil, List.sum_append, List.sum_cons,
              List.sum_nil, hlen]
            omega
          · intro j
            rw [List.count_append, count_replicate_nat, hcount j]
            simp only [List.length_append, List.length_cons, List.length_nil]
            by_cases hj : j < ups.length
            · rw [if_pos hj, if_neg (by omega), if_pos (by omega),
                getD_append_left ups _ dummyUpstream j hj]
              omega
            · by_cases hj2 : j = ups.length
              · subst hj2
                rw [if_neg (by omega), if_pos rfl, if_pos (by omega),
                  getD_append_right ups _ dummyUpstream ups.length (Nat.le_refl _)]
                simp
              · rw [if_neg hj, if_neg hj2, if_neg (by omega)]
          · intro e he
            simp only [List.length_append, List.length_cons, List.length_nil]
            rcases List.mem_append.mp he with h1 | h1
            · have := hbound e h1
              omega
            · have := List.eq_of_mem_replicate h1
              omega
      · rw [if_neg hurl] at h
        cases h

/-- Claim C7: a successfully built snapshot has one upstream per config in
order, each effective weight `clamp(weight.unwrap_or(1), 1, 100)`, a
schedule of length the sum of effective weights in which index `i` occurs
exactly `weight_i` times and references only valid indices, and pairwise
distinct upstream ids (a duplicate id makes construction fail); the config
list was non-empty. -/
theorem build_snapshot_spec (url_ok header_ok : String → Bool)
    (store : String → List String) (configs : List UpstreamConfigM)
    (snap : RouterSnapshotM)
    (h : build_snapshot_from_configs url_ok header_ok store configs = .ok snap) :
    configs ≠ [] ∧
    snap.upstreams.length = configs.length ∧
    snap.upstreams.map (fun u => u.id) = configs.map (fun c => c.id) ∧
    (snap.upstreams.map (fun u => u.id)).Nodup ∧
    (∀ j, j < configs.length →
        (snap.upstreams.getD j dummyUpstream).weight
          = clampWeight (((configs.getD j dummyConfig).weight).getD 1)) ∧
    snap.schedule.length = (snap.upstreams.map (fun u => u.weight)).sum ∧
    (∀ j, j < snap.upstreams.length →
        snap.schedule.count j = (snap.upstreams.getD j dummyUpstream).weight) ∧
    (∀ e ∈ snap.schedule, e < snap.upstreams.length) := by
  unfold build_snapshot_from_configs at h
  by_cases hemp : configs.isEmpty
  · rw [if_pos hemp] at h
    cases h
  · rw [if_neg hemp] at h
    obtain ⟨H1, H2, H3, H4, H5, H6, H7, H8⟩ :=
      build_go_ok url_ok header_ok store configs [] [] [] snap
        rfl List.nodup_nil rfl (by simp) (by simp) h
    refine ⟨by simpa [List.isEmpty_iff] using hemp, by simpa using H1,
      by simpa using H2, H3, ?_, H4, ?_, H6⟩
    · intro j hj
      simpa using H8 j (by simpa using hj)
    · intro j hj
      have := H5 j
      rw [if_pos hj] at this
      exact this

/-- Structural decidable equality for build results, used to evaluate the
witness. -/
instance : DecidableEq (Except String RouterSnapshotM) :=
  fun a b =>
    match a, b with
    | .ok x, .ok y =>
      if h : x = y then isTrue (by rw [h]) else isFalse (by simp [h])
    | .error x, .error y =>
      if h : x = y then isTrue (by rw [h]) else isFalse (by simp [h])
    | .ok _, .error _ => isFalse (by simp)
    | .error _, .ok _ => isFalse (by simp)

/-- Demo configs: default weight and an oversized weight clamping to 100. -/
def demoConfigs : List UpstreamConfigM :=
  [⟨"u1", "http://a.test", none⟩, ⟨"u2", "http://b.test", some 250⟩]

/-- The snapshot `build_snapshot_from_configs` produces for `demoConfigs`
with one credential `k1` per upstream. -/
def demoBuiltSnap : RouterSnapshotM :=
  ⟨[⟨"u1", "http://a.test", 1, [⟨"k1", "Bearer k1", 0, 0⟩], 0, [], 0, 0⟩,
    ⟨"u2", "http://b.test", 100, [⟨"k1", "Bearer k1", 0, 0⟩], 0, [], 0, 0⟩],
   [("u1", 0), ("u2", 1)],
   0 :: List.replicate 100 1⟩

/-- Witness for C7 at a concrete two-upstream configuration (default weight
and an oversized weight that clamps to 100). -/
theorem build_snapshot_spec_witness :
    demoConfigs ≠ [] ∧
    demoBuiltSnap.upstreams.length = demoConfigs.length ∧
    demoBuiltSnap.upstreams.map (fun u => u.id) = demoConfigs.map (fun c => c.id) ∧
    (demoBuiltSnap.upstreams.map (fun u => u.id)).Nodup ∧
    (∀ j, j < demoConfigs.length →
        (demoBuiltSnap.upstreams.getD j dummyUpstream).weight
          = clampWeight (((demoConfigs.getD j dummyConfig).weight).getD 1)) ∧
    demoBuiltSnap.schedule.length = (demoBuiltSnap.upstreams.map (fun u => u.weight)).sum ∧
    (∀ j, j < demoBuiltSnap.upstreams.length →
        demoBuiltSnap.schedule.count j = (demoBuiltSnap.upstreams.getD j dummyUpstream).weight) ∧
    (∀ e ∈ demoBuiltSnap.schedule, e < demoBuiltSnap.upstreams.length) :=
  build_snapshot_spec (fun _ => true) (fun _ => true) (fun _ => ["k1"])
    demoConfigs demoBuiltSnap (by decide)

/-! ## C1: streaming usage extraction (corrected) -/

/-- The fold of `parse_sse_usage` keeps the previous find unless a later
line yields one: it equals the first success scanning the lines from the
right. -/
lemma foldl_lastwins (f : List Char → Option UsageTokens) :
    ∀ (lines : List (List Char)) (init : Option UsageTokens),
      lines.foldl
          (fun found seg =>
            match f seg with
            | some u => some u
            | none => found)
          init
        = match lines.reverse.findSome? f with
          | some u => some u
          | none => init := by
  intro lines
  induction lines using List.reverseRecOn with
  | nil => intro init; simp
  | append_singleton xs x ih =>
    intro init
    rw [List.foldl_append, List.reverse_append]
    simp only [List.foldl_cons, List.foldl_nil, List.reverse_singleton,
      List.singleton_append, List.findSome?_cons]
    cases hfx : f x with
    | some u => rfl
    | none => exact ih init

/-- Claim C1 (amended: within one `parse_sse_usage` call — hence within any
single chunk — the last `usage` block wins, but once a chunk has produced a
usage the loop in `proxy_upstream_response` stops parsing, so a `usage`
block arriving in a **later** chunk does not override an earlier one):
the per-call result is the rightmost line that extracts a usage; a found
usage is frozen for the rest of the stream; `data: [DONE]` lines, lines
lacking the substring `"usage"`, and lines that fail JSON parsing all
contribute nothing. -/
theorem sse_usage_extraction_spec (parse : List Char → Option Json) :
    (∀ buf chunk,
        (parse_sse_usage parse buf chunk).1
          = (linesOf (buf ++ chunk)).reverse.findSome? (sse_line_usage parse)) ∧
    (∀ rest u buf, sse_stream_usage_go parse rest (some u) buf = some u) ∧
    (∀ seg, dataTag.isPrefixOf (List.rdropWhile (fun c => c == '\r') seg) →
        trimCharsPre ((List.rdropWhile (fun c => c == '\r') seg).drop 5) = doneTag →
        sse_line_usage parse seg = none) ∧
    (∀ seg, listContains usageNeedle
          (trimCharsPre ((List.rdropWhile (fun c => c == '\r') seg).drop 5)) = false →
        sse_line_usage parse seg = none) ∧
    (∀ seg, dataTag.isPrefixOf (List.rdropWhile (fun c => c == '\r') seg) →
        trimCharsPre ((List.rdropWhile (fun c => c == '\r') seg).drop 5) ≠ doneTag →
        listContains usageNeedle
          (trimCharsPre ((List.rdropWhile (fun c => c == '\r') seg).drop 5)) = true →
        parse (trimCharsPre ((List.rdropWhile (fun c => c == '\r') seg).drop 5)) = none →
        sse_line_usage parse seg = none) := by
  refine ⟨?_, ?_, ?_, ?_, ?_⟩
  · intro buf chunk
    simp only [parse_sse_usage]
    rw [foldl_lastwins (sse_line_usage parse) (linesOf (buf ++ chunk)) none]
    cases hfind : (linesOf (buf ++ chunk)).reverse.findSome? (sse_line_usage parse) <;>
      rfl
  · intro rest
    induction rest with
    | nil => intro u buf; rfl
    | cons c rest ih =>
      intro u buf
      simp only [sse_stream_usage_go, Option.isSome_some, if_true]
      exact ih u buf
  · intro seg hpre hdone
    unfold sse_line_usage
    rw [if_pos hpre, if_pos hdone]
  · intro seg hmark
    unfold sse_line_usage
    by_cases hpre : dataTag.isPrefixOf (List.rdropWhile (fun c => c == '\r') seg)
    · rw [if_pos hpre]
      by_cases hdone :
          trimCharsPre ((List.rdropWhile (fun c => c == '\r') seg).drop 5) = doneTag
      · rw [if_pos hdone]
      · rw [if_neg hdone, hmark]
        rfl
    · rw [if_neg hpre]
  · intro seg hpre hdone hmark hparse
    unfold sse_line_usage
    rw [if_pos hpre, if_neg hdone, hmark, hparse]
    rfl

/-- A top-level `{"usage":{"total_tokens":10}}` SSE payload. -/
def usage10 : List Char := "\x7b\"usage\":\x7b\"total_tokens\":10\x7d\x7d".toList

/-- A top-level `{"usage":{"total_tokens":20}}` SSE payload. -/
def usage20 : List Char := "\x7b\"usage\":\x7b\"total_tokens\":20\x7d\x7d".toList

/-- A concrete JSON parser agreeing with `serde_json` on the two payloads
used by the counterexample. -/
def demoParse : List Char → Option Json := fun s =>
  if s = usage10 then
    some (Json.jobj [("usage", Json.jobj [("total_tokens", Json.jnum 10)])])
  else if s = usage20 then
    some (Json.jobj [("usage", Json.jobj [("total_tokens", Json.jnum 20)])])
  else none

/-- First chunk: one complete `data:` line carrying `total_tokens = 10`. -/
def chunkA : List Char := "data: ".toList ++ usage10 ++ ['\n']

/-- Second chunk: one complete `data:` line carrying `total_tokens = 20`. -/
def chunkB : List Char := "data: ".toList ++ usage20 ++ ['\n']

/-- Counterexample for C1: in a stream whose two `data:` lines carry usage
blocks 10 and then 20 across two chunks, the recorded usage is the first
chunk's block (10), not the last block observed in the stream (20) — the
chunk loop stops parsing once a usage is found. -/
theorem sse_usage_cross_chunk_counterexample :
    sse_stream_usage demoParse [chunkA, chunkB] = some ⟨0, 0, 10⟩ ∧
    sse_line_usage demoParse ("data: ".toList ++ usage20) = some ⟨0, 0, 20⟩ ∧
    (⟨0, 0, 10⟩ : UsageTokens) ≠ ⟨0, 0, 20⟩ :=
  ⟨by decide, by decide, by decide⟩

/-- Witness for C1 (amended) at concrete lines and chunks. -/
theorem sse_usage_extraction_spec_witness :
    (parse_sse_usage demoParse [] chunkA).1
      = (linesOf ([] ++ chunkA)).reverse.findSome? (sse_line_usage demoParse) ∧
    sse_stream_usage_go demoParse [chunkB] (some ⟨0, 0, 10⟩) [] = some ⟨0, 0, 10⟩ ∧
    sse_line_usage demoParse "data: [DONE]".toList = none ∧
    sse_line_usage demoParse "data: nothing here".toList = none ∧
    sse_line_usage demoParse "data: \x7b\"usage\": oops".toList = none :=
  ⟨(sse_usage_extraction_spec demoParse).1 [] chunkA,
   (sse_usage_extraction_spec demoParse).2.1 [chunkB] ⟨0, 0, 10⟩ [],
   (sse_usage_extraction_spec demoParse).2.2.1 "data: [DONE]".toList
     (by decide) (by decide),
   (sse_usage_extraction_spec demoParse).2.2.2.1 "data: nothing here".toList
     (by decide),
   (sse_usage_extraction_spec demoParse).2.2.2.2 "data: \x7b\"usage\": oops".toList
     (by decide) (by decide) (by decide) (by rfl)⟩

/-! ## C5: the models-list shortcut (corrected) -/

/-- Rust `Vec::dedup` preserves membership. -/
lemma mem_dedupAdj (x : String) : ∀ l, x ∈ dedupAdj l ↔ x ∈ l
  | [] => by simp [dedupAdj]
  | [a] => by simp [dedupAdj]
  | a :: b :: rest => by
    have ih := mem_dedupAdj x (b :: rest)
    by_cases hab : a = b
    · have he : dedupAdj (a :: b :: rest) = dedupAdj (b :: rest) := by
        simp [dedupAdj, hab]
      rw [he, ih]
      subst hab
      simp only [List.mem_cons]
      tauto
    · have he : dedupAdj (a :: b :: rest) = a :: dedupAdj (b :: rest) := by
        simp [dedupAdj, hab]
      rw [he]
      simp only [List.mem_cons]
      rw [ih]
      simp only [List.mem_cons]

/-- Rust `entry(key).or_default().push(v)` adds `key` to the key set. -/
lemma entryPush_keys (v key x : String) : ∀ m,
    x ∈ (entryPush m key v).map Prod.fst ↔ x ∈ m.map Prod.fst ∨ x = key
  | [] => by simp [entryPush]
  | (k, vs) :: rest => by
    have ih := entryPush_keys v key x rest
    by_cases hk : k = key
    · subst hk
      have he : entryPush ((k, vs) :: rest) k v = (k, vs ++ [v]) :: rest := by
        simp [entryPush]
      rw [he]
      simp only [List.map_cons, List.mem_cons]
      tauto
    · have he : entryPush ((k, vs) :: rest) key v = (k, vs) :: entryPush rest key v := by
        simp [entryPush, hk]
      rw [he]
      simp only [List.map_cons, List.mem_cons]
      rw [ih]
      tauto

/-- Indexing a model list into the inverse map adds exactly those models to
the key set. -/
lemma foldl_entryPush_keys (id x : String) :
    ∀ (ml : List String) (m : List (String × List String)),
      x ∈ (ml.foldl (fun acc mo => entryPush acc mo id) m).map Prod.fst
        ↔ x ∈ m.map Prod.fst ∨ x ∈ ml
  | [], m => by simp
  | mo :: rest, m => by
    have ih := foldl_entryPush_keys id x rest (entryPush m mo id)
    simp only [List.foldl_cons, List.mem_cons] at ih ⊢
    rw [ih, entryPush_keys id mo x m]
    tauto

/-- The key set of the built inverse map is the union of the upstream model
sets. -/
lemma build_routes_go_keys (x : String) :
    ∀ (us : List UpstreamM) (models ups : List (String × List String)),
      x ∈ (build_routes_go us models ups).1.map Prod.fst
        ↔ x ∈ models.map Prod.fst ∨ ∃ u ∈ us, x ∈ u.models
  | [], models, ups => by simp [build_routes_go]
  | u :: rest, models, ups => by
    by_cases hm : u.models = []
    · rw [build_routes_go, if_pos hm,
        build_routes_go_keys x rest models ups]
      simp [List.exists_mem_cons_iff, hm]
    · rw [build_routes_go, if_neg hm,
        build_routes_go_keys x rest _ _,
        foldl_entryPush_keys u.id x (dedupAdj (u.models.mergeSort strLE)) models]
      have hmm : x ∈ dedupAdj (u.models.mergeSort strLE) ↔ x ∈ u.models := by
        rw [mem_dedupAdj, List.mem_mergeSort]
      rw [hmm]
      simp only [List.exists_mem_cons_iff]
      tauto

/-- The key set of `build_model_routes` is the union of the snapshot's
model sets. -/
lemma build_model_routes_keys (x : String) (snap : RouterSnapshotM) (now : Nat) :
    x ∈ (build_model_routes snap now).models.map Prod.fst
      ↔ ∃ u ∈ snap.upstreams, x ∈ u.models := by
  unfold build_model_routes
  have hmap : ((build_routes_go snap.upstreams [] []).1.map
        (fun p => (p.1, dedupAdj (p.2.mergeSort strLE)))).map Prod.fst
      = (build_routes_go snap.upstreams [] []).1.map Prod.fst := by
    rw [List.map_map]
    rfl
  rw [hmap, build_routes_go_keys x snap.upstreams [] []]
  simp

/-- Rust `strLE` is transitive. -/
lemma strLE_trans : ∀ a b c : String, strLE a b → strLE b c → strLE a c := by
  intro a b c hab hbc
  simp only [strLE, decide_eq_true_eq] at *
  exact le_trans hab hbc

/-- Rust `strLE` is total. -/
lemma strLE_total : ∀ a b : String, strLE a b || strLE b a := by
  intro a b
  simp only [strLE, Bool.or_eq_true, decide_eq_true_eq]
  exact le_total a b

/-- Claim C5 (amended: the ids come from `get_model_routes`, i.e. the
persisted `models_routes.json` when it loads, and only fall back to the
snapshot-derived aggregate when no file loads): the shortcut answers `200`
with `{object:"list", data:[{id, object:"model"}]}`, the ids are sorted and
a permutation of the routing table's model keys, and when no persisted
table loads they are exactly the snapshot's aggregated model set. -/
theorem models_list_spec (loaded : Option ModelRoutesFileM)
    (snap : RouterSnapshotM) (now : Nat) :
    (models_list (get_model_routes loaded snap now)).1 = 200 ∧
    (models_list (get_model_routes loaded snap now)).2
      = Json.jobj [("object", Json.jstr "list"),
          ("data", Json.jarr
            ((modelIdsOf (get_model_routes loaded snap now)).map modelEntry))] ∧
    (modelIdsOf (get_model_routes loaded snap now)).Pairwise
      (fun a b => strLE a b = true) ∧
    (modelIdsOf (get_model_routes loaded snap now)).Perm
      ((get_model_routes loaded snap now).models.map Prod.fst) ∧
    (loaded = none →
      ∀ m, m ∈ modelIdsOf (get_model_routes loaded snap now)
        ↔ ∃ u ∈ snap.upstreams, m ∈ u.models) := by
  refine ⟨rfl, rfl, ?_, ?_, ?_⟩
  · exact List.sorted_mergeSort strLE_trans strLE_total _
  · exact List.mergeSort_perm _ strLE
  · rintro rfl m
    show m ∈ modelIdsOf (build_model_routes snap now) ↔ _
    unfold modelIdsOf
    rw [List.mem_mergeSort]
    exact build_model_routes_keys m snap now

/-- A persisted routing table naming a model (`m-file`) under an upstream
that no longer exists. -/
def demoRoutesFile : ModelRoutesFileM :=
  ⟨0, [("m-file", ["gone"])], [("gone", ["m-file"])]⟩

/-- A live snapshot whose only upstream advertises `m-live`. -/
def demoLiveSnap : RouterSnapshotM :=
  ⟨[⟨"u1", "http://a.test", 1, [], 0, ["m-live"], 0, 0⟩], [("u1", 0)], [0]⟩

/-- Counterexample for C5: with a loadable persisted routing table the
shortcut lists the file's model keys, not the snapshot's aggregated model
set — here it answers `m-file` while the snapshot aggregate is `m-live`. -/
theorem models_list_file_counterexample :
    modelIdsOf (get_model_routes (some demoRoutesFile) demoLiveSnap 0) = ["m-file"] ∧
    spec_snapshot_model_ids demoLiveSnap = ["m-live"] ∧
    (["m-file"] : List String) ≠ ["m-live"] := by
  refine ⟨?_, ?_, by decide⟩
  · simp [get_model_routes, modelIdsOf, demoRoutesFile]
  · simp [spec_snapshot_model_ids, demoLiveSnap, dedupAdj]

/-- Witness for C5 (amended) with no persisted table over the demo
snapshot. -/
theorem models_list_spec_witness :
    (models_list (get_model_routes none demoLiveSnap 0)).1 = 200 ∧
    (∀ m, m ∈ modelIdsOf (get_model_routes none demoLiveSnap 0)
        ↔ ∃ u ∈ demoLiveSnap.upstreams, m ∈ u.models) :=
  ⟨(models_list_spec none demoLiveSnap 0).1,
   (models_list_spec none demoLiveSnap 0).2.2.2.2 rfl⟩

end GptLoad
